import Mathlib

/-!
Verification of the SmartFace voice-assistant core (Python repository
`Ormizz/SmartFace`) against its natural-language specification.

The Python code is shallowly embedded in Lean.  Text is modelled as
`List Nat`: a Python string is a sequence of Unicode code points, and each
code point is a natural number.  The string operations used by the code
(`strip`, `lower`, `title`, `in` substring test, `split`, `find`) are
defined below with Python semantics (case mapping is the ASCII mapping,
which covers every string the program manipulates).  Opaque third-party
collaborators (the sentence-embedding model together with
`cosine_similarity`, the `re` regular-expression engine, the Vosk
recognizer, skills raising exceptions) are parameters of the embedded
functions; fallible Python code is modelled with `Except`.
-/

set_option autoImplicit false

namespace SmartFace

/-- A Python string: the list of its code points. -/
abbrev PyStr := List Nat

/-- Code points of a Lean string literal, used to write concrete Python
strings. -/
def toL (s : String) : PyStr := s.toList.map Char.toNat

/-- Python whitespace test for `str.strip()` (ASCII whitespace: space, tab,
newline, carriage return, vertical tab, form feed). -/
def isSpace (c : Nat) : Bool :=
  decide (c = 32 ∨ c = 9 ∨ c = 10 ∨ c = 13 ∨ c = 11 ∨ c = 12)

/-- ASCII lower-casing of one code point, the case mapping `str.lower()`
performs on the program's texts. -/
def lc (c : Nat) : Nat := if 65 ≤ c ∧ c ≤ 90 then c + 32 else c

/-- ASCII upper-casing of one code point (used by `str.title()`). -/
def uc (c : Nat) : Nat := if 97 ≤ c ∧ c ≤ 122 then c - 32 else c

/-- ASCII letter test (used by `str.title()`). -/
def isAlpha (c : Nat) : Bool :=
  decide ((65 ≤ c ∧ c ≤ 90) ∨ (97 ≤ c ∧ c ≤ 122))

/-- Python `str.lower()`. -/
def lower (s : PyStr) : PyStr := s.map lc

/-- Python `str.strip()`: remove leading and trailing whitespace. -/
def strip (s : PyStr) : PyStr :=
  (((s.dropWhile isSpace).reverse.dropWhile isSpace)).reverse

/-- Python `str.title()`: upper-case the first letter of every maximal
letter run, lower-case the other letters. -/
def titleAux : Bool → PyStr → PyStr
  | _, [] => []
  | prev, c :: cs =>
    (if isAlpha c then (if prev then lc c else uc c) else c) ::
      titleAux (isAlpha c) cs

/-- Python `str.title()`. -/
def title (s : PyStr) : PyStr := titleAux false s

/-- Does `hay` start with `needle`? -/
def startsWith : PyStr → PyStr → Bool
  | [], _ => true
  | _ :: _, [] => false
  | a :: as, b :: bs => a == b && startsWith as bs

/-- Python `needle in hay` substring test on strings. -/
def isSub (needle hay : PyStr) : Bool :=
  hay.tails.any (fun t => startsWith needle t)

/-- The text after the first occurrence of `p` in `s`
(`s.split(p, 1)[-1]` when `p` occurs in `s`); `none` when `p` does not
occur. -/
def afterFirst (p : PyStr) : PyStr → Option PyStr
  | [] => if p.isEmpty then some [] else none
  | c :: rest =>
    if startsWith p (c :: rest) then some (List.drop p.length (c :: rest))
    else afterFirst p rest

/-- ASCII digit test, for `re.findall(r'\d+', text)`. -/
def isDigit (c : Nat) : Bool := decide (48 ≤ c ∧ c ≤ 57)

/-- Numeric value of a digit string (Python `int` on a digit run). -/
def natOfDigits (ds : PyStr) : Nat := ds.foldl (fun a d => 10 * a + (d - 48)) 0

/-- The first maximal digit run of `text`, parsed as a number:
`int(re.findall(r'\d+', text)[0])`, or `none` when no digit occurs. -/
def firstNumber : PyStr → Option Nat
  | [] => none
  | c :: rest =>
    if isDigit c then some (natOfDigits ((c :: rest).takeWhile isDigit))
    else firstNumber rest

/-- Python `result.split('\n\n')`: split on every occurrence of a double
newline (code point 10), scanning left to right without overlap. -/
def split2NL : List Nat → List (List Nat)
  | [] => [[]]
  | [a] => [[a]]
  | a :: b :: rest =>
    if a = 10 ∧ b = 10 then [] :: split2NL rest
    else
      match split2NL (b :: rest) with
      | [] => [[a]]
      | p :: ps => (a :: p) :: ps

/-- The text before the first double newline (the whole text when there is
none). -/
def before2NL : List Nat → List Nat
  | [] => []
  | [a] => [a]
  | a :: b :: rest =>
    if a = 10 ∧ b = 10 then [] else a :: before2NL (b :: rest)

/-- Does the text contain a double newline? -/
def contains2NL : List Nat → Bool
  | [] => false
  | [_] => false
  | a :: b :: rest => if a = 10 ∧ b = 10 then true else contains2NL (b :: rest)

theorem split2NL_ne_nil : ∀ s, split2NL s ≠ []
  | [] => by simp [split2NL]
  | [a] => by simp [split2NL]
  | a :: b :: rest => by
    unfold split2NL
    split
    · simp
    · cases h : split2NL (b :: rest) <;> simp

theorem headD_split2NL : ∀ s, (split2NL s).headD [] = before2NL s
  | [] => by simp [split2NL, before2NL]
  | [a] => by simp [split2NL, before2NL]
  | a :: b :: rest => by
    unfold split2NL before2NL
    split
    · simp
    · cases h : split2NL (b :: rest) with
      | nil => exact absurd h (split2NL_ne_nil _)
      | cons p ps =>
        have := headD_split2NL (b :: rest)
        rw [h] at this
        simp at this
        simp [this]

theorem length_split2NL :
    ∀ s, 1 < (split2NL s).length ↔ contains2NL s = true
  | [] => by simp [split2NL, contains2NL]
  | [a] => by simp [split2NL, contains2NL]
  | a :: b :: rest => by
    unfold split2NL contains2NL
    split
    · have h := List.length_pos.mpr (split2NL_ne_nil rest)
      simp only [List.length_cons, iff_true]
      omega
    · cases h : split2NL (b :: rest) with
      | nil => exact absurd h (split2NL_ne_nil _)
      | cons p ps =>
        have := length_split2NL (b :: rest)
        rw [h] at this
        simpa using this

theorem isSpace_lc (c : Nat) : isSpace (lc c) = isSpace c := by
  unfold lc
  split
  · rename_i h
    unfold isSpace
    rw [decide_eq_decide]
    omega
  · rfl

theorem lc_lc (c : Nat) : lc (lc c) = lc c := by
  unfold lc
  repeat' split
  all_goals omega

theorem dropWhile_lower (s : PyStr) :
    (lower s).dropWhile isSpace = lower (s.dropWhile isSpace) := by
  induction s with
  | nil => rfl
  | cons c cs ih =>
    simp only [lower, List.map_cons, List.dropWhile_cons, isSpace_lc]
    split <;> simp_all [lower]

theorem reverse_lower (s : PyStr) : (lower s).reverse = lower s.reverse := by
  simp [lower]

theorem strip_lower (s : PyStr) : strip (lower s) = lower (strip s) := by
  simp only [strip, dropWhile_lower, reverse_lower]

theorem lower_lower (s : PyStr) : lower (lower s) = lower s := by
  simp [lower, lc_lc]

theorem lower_eq_nil {s : PyStr} : lower s = [] ↔ s = [] := by
  simp [lower]

theorem dropWhile_idem {p : Nat → Bool} (l : PyStr) :
    (l.dropWhile p).dropWhile p = l.dropWhile p := by
  induction l with
  | nil => rfl
  | cons c cs ih =>
    simp only [List.dropWhile_cons]
    split
    · exact ih
    · simp_all [List.dropWhile_cons]

theorem dropWhile_head_false {p : Nat → Bool} :
    ∀ (l : PyStr) (a : Nat) (as : PyStr), l.dropWhile p = a :: as → p a = false
  | [], _, _ => by simp
  | c :: cs, a, as => by
    simp only [List.dropWhile_cons]
    split
    · exact dropWhile_head_false cs a as
    · rename_i h
      intro he
      injection he with h1 _
      subst h1
      simpa using h

theorem getLast?_dropWhile {p : Nat → Bool} :
    ∀ l : PyStr, l.dropWhile p ≠ [] → (l.dropWhile p).getLast? = l.getLast?
  | [], h => by simp at h
  | c :: cs, h => by
    by_cases hc : p c
    · have hd : (c :: cs).dropWhile p = cs.dropWhile p := by
        simp [List.dropWhile_cons, hc]
      rw [hd] at h ⊢
      cases cs with
      | nil => simp at h
      | cons x xs =>
        rw [getLast?_dropWhile (x :: xs) h, List.getLast?_cons_cons]
    · simp [List.dropWhile_cons, hc]

/-- The result of `strip` has no leading whitespace. -/
theorem dropWhile_strip (s : PyStr) :
    (strip s).dropWhile isSpace = strip s := by
  unfold strip
  set u := s.dropWhile isSpace with hu
  cases hv : u.reverse.dropWhile isSpace with
  | nil => simp
  | cons a as =>
    cases hr : (a :: as).reverse with
    | nil => simp at hr
    | cons b bs =>
      have hb : (a :: as).getLast? = some b := by
        rw [← List.head?_reverse (a :: as), hr]
        rfl
      have hne : u.reverse.dropWhile isSpace ≠ [] := by
        rw [hv]
        simp
      have hlast := getLast?_dropWhile u.reverse hne
      rw [hv, List.getLast?_reverse] at hlast
      have hhead : u.head? = some b := by rw [← hlast, hb]
      cases hul : u with
      | nil => rw [hul] at hhead; simp at hhead
      | cons x xs =>
        rw [hul] at hhead
        simp only [List.head?_cons, Option.some.injEq] at hhead
        have hx : isSpace x = false := by
          apply dropWhile_head_false s x xs
          rw [← hu, hul]
        rw [hhead] at hx
        simp [List.dropWhile_cons, hx]

theorem strip_strip (s : PyStr) : strip (strip s) = strip s := by
  conv_lhs => rw [strip, dropWhile_strip s]
  rw [strip]
  rw [List.reverse_reverse, dropWhile_idem]

theorem strip_eq_nil_of_lower {s : PyStr} :
    strip (lower s) = [] ↔ strip s = [] := by
  rw [strip_lower, lower_eq_nil]

/-!
## Intent classifier (`smartface/nlp.py`, `NLPProcessor.classify_intent`)

The sentence-embedding model and `cosine_similarity` are an opaque,
pure third-party pipeline: `sim t e` stands for the cosine similarity
between the embedding of the (normalized) input `t` and the precomputed
embedding of the catalog example `e`.  The embedding index
`self.intent_embeddings` is represented by the catalog it is derived
from: an association list from intent name to its example phrases, in
dict iteration order.
-/

/-- `np.max` over a nonempty list of scores (`0` on the empty list, which
`np.max` rejects; the catalog never has an intent without examples). -/
def npMax : List ℚ → ℚ
  | [] => 0
  | x :: xs => xs.foldl max x

/-- `NLPProcessor.classify_intent(text, threshold)`: short-circuit empty
input, normalize with strip and lower, take the per-intent maximum cosine
similarity, keep the best-scoring intent, and fall back to `"unknown"`
below the threshold. -/
def classify_intent (sim : PyStr → PyStr → ℚ)
    (catalog : List (String × List PyStr)) (text : PyStr) (threshold : ℚ) :
    String × ℚ :=
  if strip text = [] then ("unknown", 0)
  else
    let t := lower (strip text)
    let best := catalog.foldl
      (fun best p =>
        let m := npMax (p.2.map (sim t))
        if best.2 < m then (p.1, m) else best)
      ("unknown", 0)
    if best.2 < threshold then ("unknown", best.2) else best

/-- Every cosine similarity the classifier inspects: input `t` against
each example of each intent. -/
def allSims (sim : PyStr → PyStr → ℚ) (t : PyStr)
    (catalog : List (String × List PyStr)) : List ℚ :=
  (catalog.map (fun p => p.2.map (sim t))).flatten

theorem foldl_max_max (l : List ℚ) :
    ∀ a b : ℚ, l.foldl max (max a b) = max a (l.foldl max b) := by
  induction l with
  | nil => intro a b; rfl
  | cons c cs ih =>
    intro a b
    simp only [List.foldl_cons, max_assoc, ih]

theorem foldl_max_append (l₁ l₂ : List ℚ) (b : ℚ) :
    (l₁ ++ l₂).foldl max b = l₂.foldl max (l₁.foldl max b) := by
  simp [List.foldl_append]

/-- The classifier's running best score is a fold of `max` over the
per-intent maxima. -/
theorem classify_fold_snd (sim : PyStr → PyStr → ℚ) (t : PyStr) :
    ∀ (catalog : List (String × List PyStr)) (init : String × ℚ),
      (catalog.foldl
        (fun best p =>
          let m := npMax (p.2.map (sim t))
          if best.2 < m then (p.1, m) else best)
        init).2
        = (catalog.map (fun p => npMax (p.2.map (sim t)))).foldl max init.2
  | [], init => rfl
  | p :: ps, init => by
    simp only [List.foldl_cons, List.map_cons]
    rw [classify_fold_snd sim t ps]
    congr 1
    by_cases h : init.2 < npMax (p.2.map (sim t)) <;>
      simp [h, max_def] <;> split <;> simp_all <;> linarith

/-- Folding `max` over per-group maxima equals folding it over the
concatenation of the groups, when every group is nonempty. -/
theorem foldl_max_groups (sim : PyStr → PyStr → ℚ) (t : PyStr) :
    ∀ (catalog : List (String × List PyStr)) (b : ℚ),
      (∀ p ∈ catalog, p.2 ≠ []) →
      (catalog.map (fun p => npMax (p.2.map (sim t)))).foldl max b
        = (allSims sim t catalog).foldl max b
  | [], b, _ => rfl
  | p :: ps, b, h => by
    obtain ⟨x, xs, hx⟩ : ∃ x xs, p.2 = x :: xs := by
      cases hp : p.2 with
      | nil => exact absurd hp (h p (by simp))
      | cons x xs => exact ⟨x, xs, rfl⟩
    have hgroup : (p.2.map (sim t)).foldl max b = max b (npMax (p.2.map (sim t))) := by
      rw [hx]
      simp only [List.map_cons, npMax, List.foldl_cons]
      exact foldl_max_max _ b (sim t x)
    have hps : ∀ q ∈ ps, q.2 ≠ [] := fun q hq => h q (by simp [hq])
    simp only [allSims, List.map_cons, List.flatten_cons, List.foldl_cons]
    rw [foldl_max_append, hgroup,
      foldl_max_groups sim t ps (max b (npMax (p.2.map (sim t)))) hps]
    simp [allSims]

theorem foldl_max_zero_eq (l : List ℚ) : l.foldl max 0 = max 0 (npMax l) := by
  cases l with
  | nil => simp [npMax]
  | cons x xs =>
    simp only [npMax, List.foldl_cons]
    have := foldl_max_max xs 0 x
    simpa using this

/-- With a catalog of nonempty example lists, the best score kept by
`classify_intent` is the true maximum similarity clamped below at `0`. -/
theorem classify_best_eq (sim : PyStr → PyStr → ℚ) (t : PyStr)
    (catalog : List (String × List PyStr))
    (hex : ∀ p ∈ catalog, p.2 ≠ []) :
    (catalog.foldl
      (fun best p =>
        let m := npMax (p.2.map (sim t))
        if best.2 < m then (p.1, m) else best)
      ("unknown", 0)).2
      = max 0 (npMax (allSims sim t catalog)) := by
  rw [classify_fold_snd, foldl_max_groups sim t catalog 0 hex, foldl_max_zero_eq]

/-- C1 (amended): when the input survives the empty-text short circuit and
every example score is below the threshold, `classify_intent` returns
`"unknown"` together with the true maximum cosine similarity clamped below
at `0` — the running best score starts at `0.0` and is only replaced by
strictly larger scores, so a negative true maximum is reported as `0.0`,
not as itself. -/
theorem C1_unknown_reports_clamped_max
    (sim : PyStr → PyStr → ℚ) (catalog : List (String × List PyStr))
    (text : PyStr) (threshold : ℚ)
    (hne : strip text ≠ [])
    (hex : ∀ p ∈ catalog, p.2 ≠ [])
    (hbelow : max 0 (npMax (allSims sim (lower (strip text)) catalog)) < threshold) :
    classify_intent sim catalog text threshold
      = ("unknown", max 0 (npMax (allSims sim (lower (strip text)) catalog))) := by
  unfold classify_intent
  rw [if_neg hne]
  simp only [classify_best_eq sim (lower (strip text)) catalog hex]
  rw [if_pos hbelow]

theorem C1_unknown_reports_clamped_max_witness :
    (strip (toL "hi") ≠ [] ∧
      (∀ p ∈ [("greet", [toL "hello"])], p.2 ≠ ([] : List PyStr)) ∧
      max 0 (npMax (allSims (fun _ _ => -1) (lower (strip (toL "hi")))
        [("greet", [toL "hello"])])) < 1) ∧
    classify_intent (fun _ _ => -1) [("greet", [toL "hello"])] (toL "hi") (1)
      = ("unknown", max 0 (npMax (allSims (fun _ _ => -1) (lower (strip (toL "hi")))
          [("greet", [toL "hello"])]))) :=
  ⟨⟨by decide, by decide, by decide⟩,
    C1_unknown_reports_clamped_max _ _ _ _ (by decide) (by decide) (by decide)⟩

/-- C1 counterexample: with a single-intent catalog whose only cosine
similarity is `-1` (strictly below the threshold `2/5`), `classify_intent`
returns confidence `0`, while the true maximum similarity across all
intents' examples is `-1` — the claim that the reported confidence equals
the true maximum even when it is negative is false. -/
theorem C1_negative_max_counterexample :
    classify_intent (fun _ _ => -1) [("greet", [toL "hello"])] (toL "hi") (1)
        = ("unknown", 0)
      ∧ npMax (allSims (fun _ _ => -1) (lower (strip (toL "hi")))
          [("greet", [toL "hello"])]) = -1
      ∧ (0 : ℚ) ≠ -1 := by
  refine ⟨by decide, by decide, by decide⟩

/-- C7: empty or whitespace-only input short-circuits to
`("unknown", 0.0)` before the embedding model is consulted: the result
does not depend on `sim` at all (the similarity function is universally
quantified and never inspected). -/
theorem C7_empty_short_circuit
    (sim : PyStr → PyStr → ℚ) (catalog : List (String × List PyStr))
    (threshold : ℚ) (text : PyStr) (h : strip text = []) :
    classify_intent sim catalog text threshold = ("unknown", 0) := by
  unfold classify_intent
  rw [if_pos h]

/-- Witness for C7 at the spec's two concrete inputs, with a similarity
function that would score `1` (far above threshold) were the model ever
invoked. -/
theorem C7_empty_short_circuit_witness :
    (strip (toL "") = [] ∧ strip (toL "   ") = []) ∧
    classify_intent (fun _ _ => 1) [("greet", [toL "hello"])] (toL "") (1)
        = ("unknown", 0) ∧
    classify_intent (fun _ _ => 1) [("greet", [toL "hello"])] (toL "   ") (1)
        = ("unknown", 0) :=
  ⟨⟨by decide, by decide⟩,
    C7_empty_short_circuit _ _ _ _ (by decide),
    C7_empty_short_circuit _ _ _ _ (by decide)⟩

/-- C10: classification is invariant under stripping and lower-casing the
input, because `classify_intent` normalizes with `strip` and `lower`
before encoding (the embedding model `sim` is a pure function). -/
theorem C10_classify_normalization_invariant
    (sim : PyStr → PyStr → ℚ) (catalog : List (String × List PyStr))
    (text : PyStr) (threshold : ℚ) :
    classify_intent sim catalog text threshold
      = classify_intent sim catalog (lower (strip text)) threshold := by
  by_cases h : strip text = []
  · unfold classify_intent
    rw [h]
    simp [strip, lower]
  · have h1 : strip (lower (strip text)) = lower (strip text) := by
      rw [strip_lower, strip_strip]
    have h2 : lower (strip text) ≠ [] := fun he => h (lower_eq_nil.mp he)
    have h3 : strip (lower (strip text)) ≠ [] := by rw [h1]; exact h2
    unfold classify_intent
    rw [if_neg h, if_neg h3, h1, lower_lower]

/-!
## Entity extractor (`smartface/nlp.py`, `NLPProcessor.extract_entities`)

An entity map is a Python dict populated by successive insertions of
distinct keys; it is modelled as the association list of its insertions in
order.  Values are strings, integers or booleans.  The `re.sub` calls that
strip boilerplate from the search query are the opaque regex collaborator
`reSub pattern s` (`re.sub(r'\b'+pattern+r'\b', '', s, flags=IGNORECASE)`).
-/

/-- A value stored in an entity map: Python `str`, `int` or `bool`. -/
inductive EntityVal where
  | str : PyStr → EntityVal
  | int : Int → EntityVal
  | bool : Bool → EntityVal
  deriving DecidableEq

/-- Python truthiness of an entity value. -/
def EntityVal.truthy : EntityVal → Bool
  | .str s => !s.isEmpty
  | .int n => if n = 0 then false else true
  | .bool b => b

/-- The string content of an entity value (only ever applied to `str`
values, matching how the Python code reads string slots). -/
def EntityVal.asStr : EntityVal → PyStr
  | .str s => s
  | .int _ => []
  | .bool _ => []

/-- A Python dict from slot name to value, as its insertion list. -/
abbrev EntityMap := List (String × EntityVal)

/-- Python `d.get(key)` on an association list (first binding wins). -/
def alistGet? {α : Type} : List (String × α) → String → Option α
  | [], _ => none
  | (k, v) :: rest, key => if k = key then some v else alistGet? rest key

/-- Python `key in d`. -/
def hasKey (m : EntityMap) (key : String) : Bool :=
  m.any (fun p => p.1 == key)

/-- Python truthiness of `d.get(key)` (missing key is falsy `None`). -/
def truthyOpt : Option EntityVal → Bool
  | none => false
  | some v => v.truthy

/-- The fixed room gazetteer of `extract_entities`. -/
def rooms : List PyStr :=
  [toL "living room", toL "bedroom", toL "kitchen", toL "bathroom",
    toL "garage"]

/-- Question-indicating keywords of `extract_entities`. -/
def question_words : List PyStr :=
  [toL "what", toL "who", toL "where", toL "when", toL "why", toL "how",
    toL "tell me about", toL "search"]

/-- Boilerplate phrases removed from the search query. -/
def search_phrases : List PyStr :=
  [toL "search for", toL "look up", toL "find", toL "what is",
    toL "who is", toL "tell me about", toL "google", toL "search",
    toL "what are", toL "who are", toL "where is", toL "when is",
    toL "why is", toL "how is"]

/-- The fixed city gazetteer for weather queries. -/
def cities : List PyStr :=
  [toL "mohali", toL "chandigarh", toL "delhi", toL "mumbai",
    toL "bangalore", toL "hyderabad", toL "chennai", toL "kolkata",
    toL "pune", toL "ahmedabad", toL "jaipur", toL "lucknow",
    toL "kanpur", toL "nagpur", toL "indore", toL "paris", toL "london",
    toL "new york", toL "tokyo", toL "beijing", toL "sydney",
    toL "toronto", toL "berlin", toL "madrid", toL "rome"]

/-- Forward-looking temporal keywords marking a forecast request. -/
def forecast_keywords : List PyStr :=
  [toL "tomorrow", toL "forecast", toL "next", toL "week", toL "coming",
    toL "three day", toL "3 day", toL "weekly", toL "upcoming",
    toL "future"]

/-- Reminder-introducing phrases (the apostrophe is code point 39). -/
def reminder_patterns : List PyStr :=
  [toL "remind me to", toL "remind me", toL "reminder to",
    toL "don" ++ [39] ++ toL "t let me forget to", toL "remember to"]

/-- Room slot: first gazetteer room occurring in the lowered text. -/
def addRoom (tl : PyStr) (e : EntityMap) : EntityMap :=
  match rooms.find? (fun r => isSub r tl) with
  | some r => e ++ [("room", EntityVal.str r)]
  | none => e

/-- Number slot: first run of digits in the raw text, as an integer. -/
def addNumber (text : PyStr) (e : EntityMap) : EntityMap :=
  match firstNumber text with
  | some n => e ++ [("number", EntityVal.int n)]
  | none => e

/-- Query slot and `likely_search` flag, computed for `web_search`,
question-looking text, or `unknown` intent. -/
def addQuery (reSub : PyStr → PyStr → PyStr) (text tl : PyStr)
    (intent : String) (e : EntityMap) : EntityMap :=
  let is_question := question_words.any (fun w => isSub w tl)
  if intent = "web_search" ∨ is_question = true ∨ intent = "unknown" then
    let query := search_phrases.foldl (fun q p => reSub p q) text
    let e := e ++ [("query", EntityVal.str (strip query))]
    if is_question = true ∧ intent = "unknown" then
      e ++ [("likely_search", EntityVal.bool true)]
    else e
  else e

/-- City slot and `forecast` flag, computed only for the `weather`
intent. -/
def addCityForecast (tl : PyStr) (intent : String) (e : EntityMap) :
    EntityMap :=
  if intent = "weather" then
    let e :=
      match cities.find? (fun c => isSub c tl) with
      | some c => e ++ [("city", EntityVal.str (title c))]
      | none => e
    if forecast_keywords.any (fun k => isSub k tl) then
      e ++ [("forecast", EntityVal.bool true)]
    else
      e ++ [("forecast", EntityVal.bool false)]
  else e

/-- Reminder-text slot: the text after the first matching introducing
phrase (matched on the lowered text, split on the raw text), the whole
raw text when no phrase matches. -/
def addReminder (text tl : PyStr) (intent : String) (e : EntityMap) :
    EntityMap :=
  if intent = "reminder_set" then
    match reminder_patterns.find? (fun p => isSub p tl) with
    | some p =>
      e ++ [("reminder_text", EntityVal.str (strip ((afterFirst p text).getD text)))]
    | none => e ++ [("reminder_text", EntityVal.str text)]
  else e

/-- `NLPProcessor.extract_entities(text, intent)`: the five slot blocks in
source order over `text_lower = text.lower()`. -/
def extract_entities (reSub : PyStr → PyStr → PyStr) (text : PyStr)
    (intent : String) : EntityMap :=
  let tl := lower text
  addReminder text tl intent
    (addCityForecast tl intent
      (addQuery reSub text tl intent
        (addNumber text
          (addRoom tl []))))

theorem hasKey_append_single (e : EntityMap) (k : String) (v : EntityVal)
    (key : String) :
    hasKey (e ++ [(k, v)]) key = (hasKey e key || (k == key)) := by
  simp [hasKey, List.any_append]

theorem alistGet?_append_single (e : EntityMap) (k : String) (v : EntityVal)
    (key : String) (h : k ≠ key) :
    alistGet? (e ++ [(k, v)]) key = alistGet? e key := by
  induction e with
  | nil => simp [alistGet?, h]
  | cons p ps ih =>
    cases p with
    | mk k' v' =>
      simp only [List.cons_append, alistGet?]
      split <;> simp_all

theorem hasKey_addRoom (tl : PyStr) (e : EntityMap) :
    hasKey (addRoom tl e) "forecast" = hasKey e "forecast" := by
  unfold addRoom
  cases rooms.find? (fun r => isSub r tl) <;>
    simp [hasKey_append_single]

theorem hasKey_addNumber (text : PyStr) (e : EntityMap) :
    hasKey (addNumber text e) "forecast" = hasKey e "forecast" := by
  unfold addNumber
  cases firstNumber text <;> simp [hasKey_append_single]

theorem hasKey_addQuery (reSub : PyStr → PyStr → PyStr) (text tl : PyStr)
    (intent : String) (e : EntityMap) :
    hasKey (addQuery reSub text tl intent e) "forecast"
      = hasKey e "forecast" := by
  simp only [addQuery]
  split
  · split <;> simp [hasKey, List.any_append]
  · rfl

theorem hasKey_addReminder (text tl : PyStr) (intent : String)
    (e : EntityMap) :
    hasKey (addReminder text tl intent e) "forecast"
      = hasKey e "forecast" := by
  unfold addReminder
  split
  · cases reminder_patterns.find? (fun p => isSub p tl) <;>
      simp [hasKey_append_single]
  · rfl

theorem hasKey_addCityForecast (tl : PyStr) (intent : String)
    (e : EntityMap) :
    hasKey (addCityForecast tl intent e) "forecast"
      = (hasKey e "forecast" || (intent == "weather")) := by
  simp only [addCityForecast]
  split
  · rename_i h
    subst h
    cases cities.find? (fun c => isSub c tl) <;> split <;>
      simp [hasKey, List.any_append]
  · rename_i h
    have hb : (intent == "weather") = false := by
      simpa using h
    simp [hb]

theorem alistGet?_addRoom (tl : PyStr) (e : EntityMap) :
    alistGet? (addRoom tl e) "forecast" = alistGet? e "forecast" := by
  unfold addRoom
  cases rooms.find? (fun r => isSub r tl) <;>
    simp [alistGet?_append_single, reduceCtorEq]

theorem alistGet?_addNumber (text : PyStr) (e : EntityMap) :
    alistGet? (addNumber text e) "forecast" = alistGet? e "forecast" := by
  unfold addNumber
  cases firstNumber text
  · rfl
  · rw [alistGet?_append_single]
    decide

theorem alistGet?_addQuery (reSub : PyStr → PyStr → PyStr) (text tl : PyStr)
    (intent : String) (e : EntityMap) :
    alistGet? (addQuery reSub text tl intent e) "forecast"
      = alistGet? e "forecast" := by
  simp only [addQuery]
  split
  · split
    · rw [alistGet?_append_single _ _ _ _ (by decide),
        alistGet?_append_single _ _ _ _ (by decide)]
    · rw [alistGet?_append_single _ _ _ _ (by decide)]
  · rfl

theorem alistGet?_addReminder (text tl : PyStr) (intent : String)
    (e : EntityMap) :
    alistGet? (addReminder text tl intent e) "forecast"
      = alistGet? e "forecast" := by
  unfold addReminder
  split
  · cases reminder_patterns.find? (fun p => isSub p tl) <;>
      rw [alistGet?_append_single _ _ _ _ (by decide)]
  · rfl

theorem alistGet?_append_of_none {α : Type} (a b : List (String × α))
    (key : String) (h : alistGet? a key = none) :
    alistGet? (a ++ b) key = alistGet? b key := by
  induction a with
  | nil => rfl
  | cons p ps ih =>
    cases p with
    | mk k' v' =>
      simp only [alistGet?, List.cons_append] at h ⊢
      split at h
      · exact absurd h (by simp)
      · simp_all [alistGet?]

theorem alistGet?_addCityForecast_weather (tl : PyStr) (e : EntityMap)
    (hnone : alistGet? e "forecast" = none) :
    alistGet? (addCityForecast tl "weather" e) "forecast"
      = some (EntityVal.bool (forecast_keywords.any (fun k => isSub k tl))) := by
  have hmain : ∀ e' : EntityMap, alistGet? e' "forecast" = none →
      alistGet?
        (if (forecast_keywords.any fun k => isSub k tl) = true then
          e' ++ [("forecast", EntityVal.bool true)]
        else e' ++ [("forecast", EntityVal.bool false)]) "forecast"
        = some (EntityVal.bool (forecast_keywords.any fun k => isSub k tl)) := by
    intro e' h
    split <;> rename_i hkey
    · rw [alistGet?_append_of_none _ _ _ h, hkey]
      rfl
    · have hk : (forecast_keywords.any fun k => isSub k tl) = false := by
        simpa using hkey
      rw [alistGet?_append_of_none _ _ _ h, hk]
      rfl
  simp only [addCityForecast]
  rw [if_pos trivial]
  cases hfind : cities.find? (fun c => isSub c tl) with
  | none => exact hmain e hnone
  | some c =>
    exact hmain (e ++ [("city", EntityVal.str (title c))])
      (by rw [alistGet?_append_single _ _ _ _ (by decide)]; exact hnone)

/-- C9 (amended): `extract_entities` attaches the boolean `forecast` key
exactly when the intent is the string `"weather"` — not for
`"weather_city"`, which the city/forecast block does not recognize — and
under `"weather"` its value is true exactly when the lowered text contains
a forward-looking temporal keyword, false otherwise. -/
theorem C9_forecast_only_for_weather (reSub : PyStr → PyStr → PyStr)
    (text : PyStr) (intent : String) :
    (hasKey (extract_entities reSub text intent) "forecast" = true
        ↔ intent = "weather")
    ∧ (intent = "weather" →
        alistGet? (extract_entities reSub text intent) "forecast"
          = some (EntityVal.bool
              (forecast_keywords.any (fun k => isSub k (lower text))))) := by
  constructor
  · simp only [extract_entities]
    rw [hasKey_addReminder, hasKey_addCityForecast, hasKey_addQuery,
      hasKey_addNumber, hasKey_addRoom]
    simp [hasKey]
  · intro h
    subst h
    simp only [extract_entities]
    rw [alistGet?_addReminder, alistGet?_addCityForecast_weather]
    rw [alistGet?_addQuery, alistGet?_addNumber, alistGet?_addRoom]
    rfl

theorem C9_forecast_only_for_weather_witness :
    hasKey (extract_entities (fun _ q => q) (toL "will it rain tomorrow")
        "weather") "forecast" = true
      ∧ alistGet? (extract_entities (fun _ q => q)
          (toL "will it rain tomorrow") "weather") "forecast"
        = some (EntityVal.bool true) := by
  have h := C9_forecast_only_for_weather (fun _ q => q)
    (toL "will it rain tomorrow") "weather"
  refine ⟨h.1.mpr rfl, ?_⟩
  rw [h.2 rfl]
  decide

/-- C9 counterexample: under intent `"weather_city"` — a weather intent
according to the claim — the entity map for a forecast-looking text has no
`forecast` key at all, refuting the claimed "if and only if the intent
argument is a weather intent (weather or weather_city)". -/
theorem C9_weather_city_counterexample :
    hasKey (extract_entities (fun _ q => q) (toL "will it rain tomorrow")
      "weather_city") "forecast" = false := by
  decide

/-!
## Response routing (`server.py generate_response`, `smartface/main.py`)

The skills and the canned-response handler are external collaborators.
A collaborator call is Python code that may raise; it is modelled as a
function into `Except ε`, where an `Except.error` is an uncaught Python
exception propagating out of the call.  The routers contain no
`try`/`except`, so every collaborator call site simply propagates
errors (monadic short-circuit).
-/

/-- The collaborators the routers dispatch to, each allowed to raise. -/
structure Collaborators (ε : Type) where
  canned : String → Option EntityMap → Except ε PyStr
  search : PyStr → Except ε PyStr
  add_reminder : PyStr → Except ε PyStr
  list_reminders : Except ε PyStr
  turn_on_light : Option EntityVal → Except ε PyStr
  turn_off_light : Option EntityVal → Except ε PyStr
  set_temperature : EntityVal → Except ε PyStr
  get_status : Except ε PyStr
  weather_handle : String → EntityMap → PyStr → Except ε PyStr

/-- A collaborator set whose every operation raises `e`. -/
def allFail {ε : Type} (e : ε) : Collaborators ε where
  canned := fun _ _ => .error e
  search := fun _ => .error e
  add_reminder := fun _ => .error e
  list_reminders := .error e
  turn_on_light := fun _ => .error e
  turn_off_light := fun _ => .error e
  set_temperature := fun _ => .error e
  get_status := .error e
  weather_handle := fun _ _ _ => .error e

/-- The canned-response intent list shared by both routers. -/
def cannedIntents : List String :=
  ["greet", "goodbye", "how_are_you", "thank", "name", "help", "joke",
    "time", "date"]

/-- `server.py` search-result truncation: over 300 characters, return the
first `'\n\n'`-part when `parts` is nonempty (it always is), else the
first 300 characters. -/
def server_truncate (result : PyStr) : PyStr :=
  if 300 < result.length then
    let parts := split2NL result
    if parts.isEmpty = false then parts.headD [] else result.take 300
  else result

/-- `smartface/main.py _handle_web_search` truncation: over 300
characters, return the first `'\n\n'`-part when there are at least two
parts, else the first 300 characters with a follow-up suffix. -/
def main_truncate (result : PyStr) : PyStr :=
  if 300 < result.length then
    let parts := split2NL result
    if 1 < parts.length then parts.headD []
    else result.take 300 ++ toL "... Would you like to know more?"
  else result

/-- `SmartFace._handle_web_search(entities)` from `smartface/main.py`:
empty query asks what to search for, otherwise delegates to the search
collaborator and truncates the result. -/
def handle_web_search {ε : Type} (search : PyStr → Except ε PyStr)
    (entities : EntityMap) : Except ε PyStr :=
  let query := strip (((alistGet? entities "query").map EntityVal.asStr).getD [])
  if query.isEmpty then .ok (toL "What would you like me to search for?")
  else
    match search query with
    | .error e => .error e
    | .ok result => .ok (main_truncate result)

/-- `SmartFace._handle_smart_home(intent, entities, text)` from
`smartface/main.py`: dispatch on the smart-home intent; `temperature_set`
delegates only when the `number` entity is present and truthy. -/
def handle_smart_home {ε : Type} (c : Collaborators ε) (intent : String)
    (entities : EntityMap) (text : PyStr) : Except ε PyStr :=
  let room := alistGet? entities "room"
  let number := alistGet? entities "number"
  if intent = "light_on" then c.turn_on_light room
  else if intent = "light_off" then c.turn_off_light room
  else if intent = "temperature_set" then
    match number with
    | some v =>
      if v.truthy then c.set_temperature v
      else .ok (toL "What temperature would you like to set?")
    | none => .ok (toL "What temperature would you like to set?")
  else if intent = "device_status" then c.get_status
  else .ok (toL "I" ++ [39] ++ toL "m not sure what you want to do with your devices.")

/-- `server.py generate_response(intent, entities, text)`: the dispatch
chain over intents, with the web-search truncation inline and the
`likely_search` upgrade in the web-search guard. -/
def generate_response {ε : Type} (c : Collaborators ε) (intent : String)
    (entities : EntityMap) (text : PyStr) : Except ε PyStr :=
  if cannedIntents.contains intent then c.canned intent (some entities)
  else if intent = "web_search" ∨ truthyOpt (alistGet? entities "likely_search") = true then
    let query := ((alistGet? entities "query").map EntityVal.asStr).getD text
    match c.search query with
    | .error e => .error e
    | .ok result => .ok (server_truncate result)
  else if intent = "reminder_set" then
    match alistGet? entities "reminder_text" with
    | some v =>
      if v.truthy then c.add_reminder v.asStr
      else .ok (toL "What should I remind you about?")
    | none => .ok (toL "What should I remind you about?")
  else if intent = "reminder_list" then c.list_reminders
  else if intent = "light_on" then c.turn_on_light (alistGet? entities "room")
  else if intent = "light_off" then c.turn_off_light (alistGet? entities "room")
  else if intent = "temperature_set" then
    match alistGet? entities "number" with
    | some v =>
      if v.truthy then c.set_temperature v
      else .ok (toL "What temperature?")
    | none => .ok (toL "What temperature?")
  else if intent = "device_status" then c.get_status
  else if intent = "weather" ∨ intent = "weather_city" then
    c.weather_handle intent entities text
  else c.canned "unknown" none

theorem before2NL_eq_self : ∀ s, contains2NL s = false → before2NL s = s
  | [], _ => rfl
  | [a], _ => rfl
  | a :: b :: rest, h => by
    rw [contains2NL] at h
    split at h
    · exact absurd h (by simp)
    · rename_i hc
      rw [before2NL, if_neg hc, before2NL_eq_self (b :: rest) h]

/-- C2 (amended): for a search result over the 300-character cap, when the
result contains a paragraph break (double newline) both routers return the
text before the first break, even when that prefix itself exceeds the cap;
when it contains none, `smartface/main.py` returns the first 300
characters followed by the literal suffix `"... Would you like to know
more?"` (332 characters, not exactly 300), and `server.py` returns the
result unchanged (`result.split('\n\n')` is never empty, so its
`parts[0]` fallback returns the whole text). -/
theorem C2_truncation_behavior (result : PyStr) (h : 300 < result.length) :
    (contains2NL result = true →
      main_truncate result = before2NL result
      ∧ server_truncate result = before2NL result)
    ∧ (contains2NL result = false →
      main_truncate result
          = result.take 300 ++ toL "... Would you like to know more?"
      ∧ server_truncate result = result) := by
  have hne : (split2NL result).isEmpty = false := by
    cases hsp : split2NL result
    · exact absurd hsp (split2NL_ne_nil result)
    · rfl
  have hserver : server_truncate result = before2NL result := by
    simp only [server_truncate]
    rw [if_pos h, if_pos hne, headD_split2NL]
  constructor
  · intro hc
    refine ⟨?_, hserver⟩
    simp only [main_truncate]
    rw [if_pos h, if_pos ((length_split2NL result).mpr hc), headD_split2NL]
  · intro hc
    refine ⟨?_, ?_⟩
    · simp only [main_truncate]
      rw [if_pos h, if_neg]
      rw [length_split2NL result]
      simp [hc]
    · rw [hserver, before2NL_eq_self result hc]

set_option maxRecDepth 4000 in
theorem C2_truncation_behavior_witness :
    (300 < (List.replicate 120 97 ++ [10, 10] ++ List.replicate 378 98).length
      ∧ contains2NL (List.replicate 120 97 ++ [10, 10] ++ List.replicate 378 98)
          = true)
    ∧ main_truncate (List.replicate 120 97 ++ [10, 10] ++ List.replicate 378 98)
        = List.replicate 120 97
    ∧ server_truncate (List.replicate 120 97 ++ [10, 10] ++ List.replicate 378 98)
        = List.replicate 120 97 := by
  have h := C2_truncation_behavior
    (List.replicate 120 97 ++ [10, 10] ++ List.replicate 378 98) (by decide)
  have hc := h.1 (by decide)
  exact ⟨⟨by decide, by decide⟩, by rw [hc.1]; decide, by rw [hc.2]; decide⟩

set_option maxRecDepth 4000 in
/-- C2 counterexample: a 500-character result with no paragraph break is
not routed as exactly its first 300 characters: `main.py` appends a
32-character suffix (total length 332), and `server.py` returns all 500
characters, exceeding the cap with no paragraph boundary involved. -/
theorem C2_no_break_counterexample :
    main_truncate (List.replicate 500 97) ≠ (List.replicate 500 97).take 300
    ∧ (main_truncate (List.replicate 500 97)).length = 332
    ∧ server_truncate (List.replicate 500 97) = List.replicate 500 97 := by
  refine ⟨by decide, by decide, by decide⟩

/-- C4 (amended): the routers contain no exception handling, so a raising
collaborator propagates out of `generate_response` unchanged — here, with
every collaborator raising `e`, a `web_search` request yields the error
`e`, not an apologetic response string; the failure is caught only
further out (the HTTP endpoint wrapper converts it to a 500, the CLI
driver's top-level handler shuts the assistant down). -/
theorem C4_collaborator_failure_propagates {ε : Type} (e : ε)
    (entities : EntityMap) (text : PyStr) :
    generate_response (allFail e) "web_search" entities text
      = Except.error e := by
  simp only [generate_response]
  rw [if_neg (by decide), if_pos (Or.inl trivial)]
  cases alistGet? entities "query" <;> rfl

/-- C4 counterexample: a failing search collaborator makes the router
return the propagated error, not a user-facing apology — refuting "caught
at the router boundary, never allowed to propagate". -/
theorem C4_failure_not_caught_counterexample :
    generate_response (allFail "skill raised") "web_search" ([] : EntityMap)
        ([] : PyStr)
      = Except.error "skill raised" := by
  rfl

/-- C6 (amended): routing `temperature_set` delegates to the smart-home
collaborator exactly when the entity map holds a truthy `number` entity:
a nonzero number delegates, while an absent number — or a number equal to
`0`, which Python's `if number:` treats as falsy — yields the clarifying
question without invoking the collaborator. -/
theorem C6_temperature_requires_truthy_number {ε : Type}
    (c : Collaborators ε) (entities : EntityMap) (text : PyStr) :
    (∀ n : Int, alistGet? entities "number" = some (EntityVal.int n) → n ≠ 0 →
      handle_smart_home c "temperature_set" entities text
        = c.set_temperature (EntityVal.int n))
    ∧ (truthyOpt (alistGet? entities "number") = false →
      handle_smart_home c "temperature_set" entities text
        = Except.ok (toL "What temperature would you like to set?")) := by
  constructor
  · intro n hg hn
    simp only [handle_smart_home]
    rw [if_neg (by decide), if_neg (by decide), if_pos trivial, hg]
    simp [EntityVal.truthy, hn]
  · intro ht
    simp only [handle_smart_home]
    rw [if_neg (by decide), if_neg (by decide), if_pos trivial]
    cases hnum : alistGet? entities "number" with
    | none => rfl
    | some v =>
      rw [hnum] at ht
      simp only [truthyOpt] at ht
      simp [ht]

theorem C6_temperature_requires_truthy_number_witness :
    handle_smart_home (allFail "boom") "temperature_set"
        [("number", EntityVal.int 21)] []
      = Except.error "boom"
    ∧ handle_smart_home (allFail "boom") "temperature_set" ([] : EntityMap) []
      = Except.ok (toL "What temperature would you like to set?") := by
  refine ⟨?_, ?_⟩
  · rw [(C6_temperature_requires_truthy_number (allFail "boom")
      [("number", EntityVal.int 21)] []).1 21 rfl (by decide)]
    rfl
  · exact (C6_temperature_requires_truthy_number (allFail "boom")
      ([] : EntityMap) []).2 rfl

/-- C6 counterexample: the entity map `{"number": 0}` does contain a
`number` entity, yet the router answers the clarifying question without
invoking the smart-home collaborator (every collaborator here raises, so
any invocation would surface as an error) — refuting "delegates exactly
when the entity map contains a number entity". -/
theorem C6_zero_number_counterexample :
    handle_smart_home (allFail "boom") "temperature_set"
        [("number", EntityVal.int 0)] []
      = Except.ok (toL "What temperature would you like to set?")
    ∧ alistGet? [("number", EntityVal.int 0)] "number"
      = some (EntityVal.int 0) := by
  exact ⟨rfl, rfl⟩

/-!
## Endpoint detection (`client.py`, `SmartFaceClient.record`)

The microphone stream is a sequence of frames; only each frame's RMS
energy (`audioop.rms(data, 2)`, a natural number) drives the control
flow, so a frame is represented by its RMS value and the utterance buffer
by the list of recorded frames.  Wall-clock timeout is modelled by the
number `T` of loop iterations that fit before `time.time() - start_time`
exceeds `LISTEN_TIMEOUT`: the loop body runs at most `T` times.  The
energy threshold `et` and consecutive-silence threshold `st` are the
configuration constants `ENERGY_THRESHOLD` and `SILENCE_THRESHOLD`.
-/

/-- One pass of `SmartFaceClient.record`'s read loop: append the frame,
update the speech flag and silence counter, stop when silence after
speech exceeds the threshold, stop at timeout (fuel exhausted).  Returns
the accumulated frames and whether speech was ever detected. -/
def recordLoop (et st : ℕ) : ℕ → List ℕ → List ℕ → ℕ → Bool → List ℕ × Bool
  | 0, _, frames, _, spoken => (frames, spoken)
  | _ + 1, [], frames, _, spoken => (frames, spoken)
  | t + 1, rms :: rest, frames, silence, spoken =>
    if et < rms then recordLoop et st t rest (frames ++ [rms]) 0 true
    else
      let silence' := if spoken then silence + 1 else silence
      if spoken ∧ st < silence' then (frames ++ [rms], spoken)
      else recordLoop et st t rest (frames ++ [rms]) silence' spoken

/-- `SmartFaceClient.record()`: run the loop from idle state; return
`none` when no speech was detected, else the recorded utterance buffer. -/
def record (et st T : ℕ) (stream : List ℕ) : Option (List ℕ) :=
  let r := recordLoop et st T stream [] 0 false
  if r.2 then some r.1 else none

/-- `ENERGY_THRESHOLD` from `smartface/config.py`. -/
def ENERGY_THRESHOLD : ℕ := 500

/-- `SILENCE_THRESHOLD` from `smartface/config.py`. -/
def SILENCE_THRESHOLD : ℕ := 50

theorem recordLoop_all_low (et st : ℕ) :
    ∀ (T : ℕ) (stream frames : List ℕ) (silence : ℕ),
      (∀ f ∈ stream.take T, f ≤ et) →
      (recordLoop et st T stream frames silence false).2 = false
  | 0, _, _, _, _ => rfl
  | _ + 1, [], _, _, _ => rfl
  | T + 1, rms :: rest, frames, silence, h => by
    have hr : rms ≤ et := h rms (by simp)
    rw [recordLoop, if_neg (by omega)]
    simp only [if_neg (by simp : ¬(False ∧ st < silence))]
    exact recordLoop_all_low et st T rest (frames ++ [rms]) silence
      (fun f hf => h f (by simp [hf]))

/-- While every incoming frame is energetic, the loop stays in speaking
state with a zeroed silence counter and collects every frame. -/
theorem recordLoop_hi_phase (et st : ℕ) :
    ∀ (hi : List ℕ) (t : ℕ) (rest frames : List ℕ),
      (∀ f ∈ hi, et < f) → hi.length ≤ t →
      recordLoop et st t (hi ++ rest) frames 0 true
        = recordLoop et st (t - hi.length) rest (frames ++ hi) 0 true
  | [], t, rest, frames, _, _ => by simp
  | f :: hi', t, rest, frames, h, hlen => by
    obtain ⟨t', rfl⟩ : ∃ t', t = t' + 1 := by
      cases t
      · simp at hlen
      · exact ⟨_, rfl⟩
    have hf : et < f := h f (by simp)
    rw [List.cons_append, recordLoop, if_pos hf,
      recordLoop_hi_phase et st hi' t' rest (frames ++ [f])
        (fun g hg => h g (by simp [hg])) (by simpa using hlen)]
    simp only [List.append_assoc, List.singleton_append, List.length_cons]
    congr 1
    omega

/-- In speaking state with silence counter `k`, an all-low stream is
consumed until the counter passes the threshold: exactly `st + 1 - k`
further frames are collected. -/
theorem recordLoop_lo_phase (et st : ℕ) :
    ∀ (lo : List ℕ) (t k : ℕ) (frames : List ℕ),
      (∀ f ∈ lo, f ≤ et) → k ≤ st →
      st + 1 - k ≤ lo.length → st + 1 - k ≤ t →
      recordLoop et st t lo frames k true
        = (frames ++ lo.take (st + 1 - k), true)
  | [], t, k, frames, _, hk, hlen, _ => by simp at hlen; omega
  | f :: lo', t, k, frames, h, hk, hlen, ht => by
    obtain ⟨t', rfl⟩ : ∃ t', t = t' + 1 := by
      cases t
      · omega
      · exact ⟨_, rfl⟩
    have hf : f ≤ et := h f (by simp)
    rw [recordLoop, if_neg (by omega)]
    show (if true = true ∧ st < k + 1 then (frames ++ [f], true)
        else recordLoop et st t' lo' (frames ++ [f]) (k + 1) true)
      = (frames ++ (f :: lo').take (st + 1 - k), true)
    by_cases hkst : k = st
    · rw [if_pos ⟨rfl, by omega⟩]
      have h1 : st + 1 - k = 1 := by omega
      simp [h1]
    · rw [if_neg (by rintro ⟨-, hlt⟩; omega),
        recordLoop_lo_phase et st lo' t' (k + 1) (frames ++ [f])
          (fun g hg => h g (by simp [hg])) (by omega)
          (by simp at hlen ⊢; omega) (by omega)]
      have htake : (f :: lo').take (st + 1 - k) = f :: lo'.take (st - k) := by
        have h2 : st + 1 - k = (st - k) + 1 := by omega
        simp [h2]
      rw [htake]
      have h3 : st + 1 - (k + 1) = st - k := by omega
      simp [h3]

/-- C3: (a) when every frame read before the timeout stays at or below
`ENERGY_THRESHOLD`, `record` returns `None`; (b) for a stream of
energetic frames followed by more than `SILENCE_THRESHOLD` low-energy
frames (with enough time before the timeout), `record` returns exactly
the energetic frames plus the trailing low-energy run up to the boundary
at which the consecutive-silence counter exceeds the threshold (the
`SILENCE_THRESHOLD + 1` low frames read up to and including the one that
trips the stop condition), and no other frames. -/
theorem C3_record_endpointing (et st T : ℕ) (stream hi lo : List ℕ) :
    ((∀ f ∈ stream.take T, f ≤ et) → record et st T stream = none)
    ∧ (stream = hi ++ lo → hi ≠ [] → (∀ f ∈ hi, et < f) →
        (∀ f ∈ lo, f ≤ et) → st + 1 ≤ lo.length → hi.length + st + 1 ≤ T →
        record et st T stream = some (hi ++ lo.take (st + 1))) := by
  constructor
  · intro h
    simp [record, recordLoop_all_low et st T stream [] 0 h]
  · rintro rfl hne hhi hlo hlen hT
    obtain ⟨f, hi', rfl⟩ : ∃ f hi', hi = f :: hi' := by
      cases hi with
      | nil => simp at hne
      | cons f hi' => exact ⟨f, hi', rfl⟩
    have hlc : (f :: hi').length = hi'.length + 1 := by simp
    obtain ⟨T', rfl⟩ : ∃ T', T = T' + 1 := by
      cases T
      · omega
      · exact ⟨_, rfl⟩
    simp only [record]
    rw [List.cons_append, recordLoop, if_pos (hhi f (by simp)),
      recordLoop_hi_phase et st hi' T' lo ([] ++ [f])
        (fun g hg => hhi g (by simp [hg])) (by omega),
      recordLoop_lo_phase et st lo (T' - hi'.length) 0 (([] ++ [f]) ++ hi')
        hlo (by omega) (by omega) (by omega)]
    simp

theorem C3_record_endpointing_witness :
    record 500 50 60 (List.replicate 60 0) = none
    ∧ record 500 50 60 (600 :: List.replicate 51 0)
        = some (600 :: List.replicate 51 0) := by
  refine
    ⟨(C3_record_endpointing 500 50 60 (List.replicate 60 0) [] []).1
      (by decide), ?_⟩
  have h := (C3_record_endpointing 500 50 60 (600 :: List.replicate 51 0)
    [600] (List.replicate 51 0)).2 rfl (by decide) (by decide) (by decide)
    (by decide) (by decide)
  rw [h]
  decide

/-!
## Speech-to-text listening (`smartface/stt.py`, `SpeechToText.listen`)

Each loop iteration reads a frame from the microphone and feeds it to the
Vosk recognizer (an opaque, stateful collaborator).  An iteration is
therefore modelled by its observable outcome: either the read raises
(`ReadEvent.fail` — `self.stream.read` raising is the frame-source
failure), or it yields a recognizer response (`accept` for
`rec.AcceptWaveform(data)`, and the accompanying result/partial text).
The fuel `T` bounds the iterations that fit before `LISTEN_TIMEOUT`.
-/

/-- The observable outcome of one read+recognize step. -/
inductive ReadEvent where
  | fail : ReadEvent
  | ok : Bool → PyStr → ReadEvent

/-- `" ".join(full_text).strip()`. -/
def joinWords (ws : List PyStr) : PyStr := strip (List.intercalate [32] ws)

/-- `SpeechToText.listen`'s read loop, state
`(full_text, silence_counter, last_partial, has_spoken)`; the
`except Exception` handler around the loop turns any read failure into an
immediate `return ""`. -/
def listenLoop (st : ℕ) : ℕ → List ReadEvent → List PyStr → ℕ → PyStr →
    Bool → PyStr
  | 0, _, full, _, _, _ => joinWords full
  | _ + 1, [], full, _, _, _ => joinWords full
  | _ + 1, ReadEvent.fail :: _, _, _, _, _ => []
  | t + 1, ReadEvent.ok accept txt :: rest, full, sil, lastp, spoken =>
    if accept then
      let txt := strip txt
      if txt.isEmpty = false then
        listenLoop st t rest (full ++ [txt]) 0 lastp true
      else
        let sil' := if spoken then sil + 1 else sil
        if spoken ∧ st < sil' then joinWords full
        else listenLoop st t rest full sil' lastp spoken
    else
      if txt.isEmpty = false ∧ txt ≠ lastp then
        listenLoop st t rest full 0 txt true
      else
        let sil' := if spoken then sil + 1 else sil
        if spoken ∧ st < sil' then joinWords full
        else listenLoop st t rest full sil' lastp spoken

/-- `SpeechToText.listen()`: run the loop from the idle state and return
the recognized text (the empty string doubles as "no speech"). -/
def listen (st T : ℕ) (events : List ReadEvent) : PyStr :=
  listenLoop st T events [] 0 [] false

/-- C5 (amended): in `SpeechToText.listen`, a frame-source read failure is
swallowed by the catch-all `except` handler and reported as the empty
string — for any timeout budget and any remaining stream, a failing first
read produces `""`, the same value a silent timeout produces, discarding
even previously recognized text. -/
theorem C5_read_failure_swallowed (st T : ℕ) (rest : List ReadEvent)
    (hT : 0 < T) :
    listen st T (ReadEvent.fail :: rest) = [] := by
  obtain ⟨T', rfl⟩ : ∃ T', T = T' + 1 := by
    cases T
    · omega
    · exact ⟨_, rfl⟩
  rfl

theorem C5_read_failure_swallowed_witness :
    0 < 5 ∧ listen 50 5 [ReadEvent.fail] = [] :=
  ⟨by decide, C5_read_failure_swallowed 50 5 [ReadEvent.fail] (by decide)⟩

/-- C5 counterexample: a run whose first frame read fails returns exactly
the same value (the empty string) as a run that times out in silence, and
`listen`'s result type has no error channel at all — the failure is
reported as if the user had been silent, refuting "surfaced as an error
condition distinct from timeout/silence". -/
theorem C5_failure_equals_silence_counterexample :
    listen 50 5 [ReadEvent.fail]
      = listen 50 5 [ReadEvent.ok true [], ReadEvent.ok false [],
          ReadEvent.ok true [], ReadEvent.ok false [], ReadEvent.ok true []]
    ∧ listen 50 5 [ReadEvent.fail] = [] := by
  exact ⟨rfl, rfl⟩

/-!
## Runtime catalog mutation (`smartface/nlp.py`,
`NLPProcessor.add_intent_examples`)

The mutable classifier state is the pair of Python dicts `self.intents`
(intent name to phrase list) and `self.intent_embeddings` (intent name to
that intent's example embeddings, `self.model.encode(phrases)`).  Both
dicts are modelled as insertion-ordered association lists; the embedding
of one phrase is `enc phrase` for the opaque pure encoder `enc`, so an
intent's cached entry is `phrases.map enc` when freshly computed (and an
arbitrary stored list otherwise — the state is not assumed consistent, so
preservation of other entries shows they are genuinely untouched). -/
structure NLPState (E : Type) where
  intents : List (String × List PyStr)
  intent_embeddings : List (String × List E)

/-- Python dict assignment `d[key] = v`: overwrite in place when the key
exists, append otherwise. -/
def alistSet {α : Type} : List (String × α) → String → α → List (String × α)
  | [], key, v => [(key, v)]
  | (k, w) :: rest, key, v =>
    if k = key then (k, v) :: rest else (k, w) :: alistSet rest key v

/-- `NLPProcessor.add_intent_examples(intent, examples)`: extend (or
create) the intent's phrase list, then recompute that intent's embedding
entry from its full phrase list. -/
def add_intent_examples {E : Type} (enc : PyStr → E) (s : NLPState E)
    (intent : String) (examples : List PyStr) : NLPState E :=
  let phrases :=
    match alistGet? s.intents intent with
    | some ph => ph ++ examples
    | none => examples
  { intents := alistSet s.intents intent phrases,
    intent_embeddings :=
      alistSet s.intent_embeddings intent (phrases.map enc) }

theorem alistGet?_alistSet_self {α : Type} :
    ∀ (m : List (String × α)) (key : String) (v : α),
      alistGet? (alistSet m key v) key = some v
  | [], key, v => by simp [alistSet, alistGet?]
  | (k, w) :: rest, key, v => by
    simp only [alistSet]
    split
    · rename_i h
      simp [alistGet?, h]
    · simp [alistGet?, alistGet?_alistSet_self rest key v, *]

theorem alistGet?_alistSet_ne {α : Type} :
    ∀ (m : List (String × α)) (key k' : String) (v : α), k' ≠ key →
      alistGet? (alistSet m key v) k' = alistGet? m k'
  | [], key, k', v, h => by simp [alistSet, alistGet?, Ne.symm h]
  | (k, w) :: rest, key, k', v, h => by
    simp only [alistSet]
    split
    · rename_i he
      subst he
      simp [alistGet?, Ne.symm h]
    · simp only [alistGet?]
      split
      · rfl
      · exact alistGet?_alistSet_ne rest key k' v h

/-- C8: `add_intent_examples` appends the new examples to the target
intent's phrase list (creating the intent when absent) and installs the
freshly encoded embedding entry for that intent only; for every other
intent, both the phrase list and the cached embedding entry are exactly
the stored ones — even entries the encoder would no longer produce — so
no other intent is recomputed and no full index rebuild occurs. -/
theorem C8_add_examples_local_update {E : Type} (enc : PyStr → E)
    (s : NLPState E) (intent : String) (examples : List PyStr)
    (hne : examples ≠ []) :
    (alistGet? (add_intent_examples enc s intent examples).intents intent
        = some ((alistGet? s.intents intent).getD [] ++ examples))
    ∧ (alistGet? (add_intent_examples enc s intent examples).intent_embeddings
          intent
        = some (((alistGet? s.intents intent).getD [] ++ examples).map enc))
    ∧ (∀ k : String, k ≠ intent →
        alistGet? (add_intent_examples enc s intent examples).intents k
            = alistGet? s.intents k
        ∧ alistGet? (add_intent_examples enc s intent examples).intent_embeddings k
            = alistGet? s.intent_embeddings k) := by
  refine ⟨?_, ?_, ?_⟩
  · simp only [add_intent_examples]
    rw [alistGet?_alistSet_self]
    cases h : alistGet? s.intents intent <;> simp [h]
  · simp only [add_intent_examples]
    rw [alistGet?_alistSet_self]
    cases h : alistGet? s.intents intent <;> simp [h]
  · intro k hk
    constructor <;>
      · simp only [add_intent_examples]
        rw [alistGet?_alistSet_ne _ _ _ _ hk]

theorem C8_add_examples_local_update_witness :
    (([toL "foo bar"] : List PyStr) ≠ [] ∧ ("greet" : String) ≠ "custom")
    ∧ alistGet?
        (add_intent_examples (fun p => p)
          ⟨[("greet", [toL "hello"])], [("greet", [toL "hello"])]⟩
          "custom" [toL "foo bar"]).intents "custom"
      = some [toL "foo bar"]
    ∧ alistGet?
        (add_intent_examples (fun p => p)
          ⟨[("greet", [toL "hello"])], [("greet", [toL "hello"])]⟩
          "custom" [toL "foo bar"]).intents "greet"
      = some [toL "hello"]
    ∧ alistGet?
        (add_intent_examples (fun p => p)
          ⟨[("greet", [toL "hello"])], [("greet", [toL "hello"])]⟩
          "custom" [toL "foo bar"]).intent_embeddings "greet"
      = some [toL "hello"] := by
  have h := C8_add_examples_local_update (fun p => p)
    ⟨[("greet", [toL "hello"])], [("greet", [toL "hello"])]⟩
    "custom" [toL "foo bar"] (by decide)
  have hg := h.2.2 "greet" (by decide)
  exact ⟨⟨by decide, by decide⟩, by rw [h.1]; rfl, by rw [hg.1]; rfl,
    by rw [hg.2]; rfl⟩

end SmartFace
